import Mathlib

set_option maxRecDepth 100000

/-!
Verification of the CODEREFINE backend review pipeline
(`src/CODEREVGENAI/backend/main.py`, with `ai_service.py` as a secondary
copy of some helpers).  The Python code is shallowly embedded: strings are
`String` / `List Char`, Python dict payloads become a `Payload` structure of
optional fields, the mutable globals `CODE_DATABASE` / `STUDENT_STATS`
become an explicit `ReviewState` threaded through `processCode`, and the
external LLM providers become oracle functions supplied in an environment.
Python floats are modelled with `ℚ` (exact for the properties proved here;
float formatting and banker's rounding at exact midpoints are abstracted).
-/

/-- Boolean prefix test on character lists (the building block used to embed
Python's substring and regex-literal matching). -/
def pfx : List Char → List Char → Bool
  | [], _ => true
  | _ :: _, [] => false
  | a :: as, b :: bs => if a = b then pfx as bs else false

/-- Boolean substring test: does `pat` occur (contiguously) in `s`?
Embeds Python's `pat in s`. -/
def containsSub (pat : List Char) : List Char → Bool
  | [] => pat.isEmpty
  | c :: rest => pfx pat (c :: rest) || containsSub pat rest

/-- Auxiliary scanner for `countSub`: `skip` positions are still covered by a
previous match and are not candidate match starts. -/
def countSubAux (pat : List Char) : Nat → List Char → Nat
  | _, [] => 0
  | n + 1, _ :: rest => countSubAux pat n rest
  | 0, c :: rest =>
      if pfx pat (c :: rest) then 1 + countSubAux pat (pat.length - 1) rest
      else countSubAux pat 0 rest

/-- Number of non-overlapping left-to-right occurrences of the literal
pattern `pat` in `s`: embeds `len(re.findall(pat, s))` for a literal,
non-empty pattern as used in `process_code`'s stats block. -/
def countSub (pat s : List Char) : Nat := countSubAux pat 0 s

/-- Python string truthiness: `None` and `""` are falsy. -/
def strTruthy : Option String → Bool
  | none => false
  | some s => !(s = "")

/-- Embeds Python's `a or b` for an optional string `a` and a string `b`
(the payload-normalization idiom `payload.get(k) or d`). -/
def pyOr (a : Option String) (b : String) : String :=
  match a with
  | some s => if s = "" then b else s
  | none => b

/-- Embeds Python's `d.get(k, default)`: the value if the key is present
(even when empty), the default otherwise. -/
def pyGetD (a : Option String) (b : String) : String :=
  match a with
  | some s => s
  | none => b

/-- The JSON payload of a `/api/review` / `/api/rewrite` request, with every
key the handler reads (plus `userType`, which the spec names but the handler
never reads).  Absent keys are `none`. -/
structure Payload where
  code : Option String
  text : Option String
  user_type : Option String
  userType : Option String
  role : Option String
  student_name : Option String
  username : Option String
  email : Option String
  model : Option String

/-- `code = payload.get("code") or payload.get("text") or ""`
(main.py line 488). -/
def normCode (p : Payload) : String := pyOr p.code (pyOr p.text "")

/-- `u_type = payload.get("user_type") or payload.get("role") or "developer"`
(main.py line 490).  Note the handler never reads the `userType` key. -/
def normUserType (p : Payload) : String := pyOr p.user_type (pyOr p.role "developer")

/-- `u_name = payload.get("student_name") or payload.get("username") or
payload.get("email") or "Anonymous"` (main.py line 492). -/
def normUserName (p : Payload) : String :=
  pyOr p.student_name (pyOr p.username (pyOr p.email "Anonymous"))

/-- The `student` persona text of `create_balanced_review_prompt`
(main.py lines 395-406), transcribed verbatim. -/
def studentPersona : String :=
  "You are a supportive AI Tutor. Analyze this code FAIRLY:\n1. Start by acknowledging what was done WELL\n2. Point out ONLY actual bugs or logical errors (not style preferences)\n3. Suggest improvements with explanations\n4. Give hints for learning\n\nFormat with:\n### Strengths (what\x27s good)\n### Issues (only real bugs)\n### Suggestions (improvements)\n\nCode to review:"

/-- The `enterprise` persona text (main.py lines 407-419), transcribed
verbatim. -/
def enterprisePersona : String :=
  "You are a Security Auditor. Review this code for:\n1. ONLY genuine security vulnerabilities (OWASP Top 10)\n2. Compliance issues that matter\n3. NOT minor nitpicks\n\nIf code is secure, say \"### Strengths - No critical security issues found\"\n\nFormat with:\n### Critical (severe vulnerabilities only)\n### High (important security issues)\n### Suggestions (improvements)\n\nCode to review:"

/-- The `developer` persona text (main.py lines 420-431), transcribed
verbatim. -/
def developerPersona : String :=
  "You are a Senior Developer doing constructive code review. Analyze OBJECTIVELY:\n1. Start with what\x27s done RIGHT\n2. Point out ONLY real bugs, inefficiencies, or architectural issues\n3. Suggest optimizations with reasoning\n4. Be encouraging\n\nFormat with:\n### Strengths (good patterns used)\n### Issues (real bugs or performance problems)\n### Suggestions (improvements)\n\nCode to review:"

/-- `personas.get(user_type, personas['developer'])` (main.py line 434):
dictionary lookup over the three persona keys with `developer` default. -/
def resolvePersona (user_type : String) : String :=
  if user_type = "student" then studentPersona
  else if user_type = "enterprise" then enterprisePersona
  else developerPersona

/-- `create_balanced_review_prompt(code, user_type)` (main.py lines 392-435):
resolved persona text, a newline, then the code body. -/
def create_balanced_review_prompt (code user_type : String) : String :=
  resolvePersona user_type ++ "\n" ++ code

/-- `inject_policies(prompt, user_type)` (main.py lines 437-441), with the
global `COMPANY_POLICIES` passed explicitly. -/
def inject_policies (prompt user_type policies : String) : String :=
  if (user_type = "enterprise" ∨ user_type = "organisation") ∧ ¬(policies = "") then
    "STRICTLY ADHERE TO THE FOLLOWING COMPANY POLICIES:\n" ++ policies ++ "\n\n" ++ prompt
  else prompt

/-- The four severity markers counted by `process_code`
(main.py lines 529-532). -/
def markerCritical : String := "### Critical"

/-- Severity marker `### High` (main.py line 530). -/
def markerHigh : String := "### High"

/-- Severity marker `### Medium` (main.py line 531). -/
def markerMedium : String := "### Medium"

/-- Severity marker `### Low` (main.py line 532). -/
def markerLow : String := "### Low"

/-- Lowercase a string character-wise: embeds Python's `str.lower()`
(ASCII range, which is all the dispatch substring `"gemini"` needs). -/
def strLower (s : String) : String := String.mk (s.data.map Char.toLower)

/-- Environment for the model gateway `get_ai_response` (main.py lines
329-369): availability flag and system key of the Gemini provider, and the
two provider calls as oracles returning either the response text or a raised
exception (`Except.error` carries `str(e)`). -/
structure AIEnv where
  geminiAvailable : Bool
  systemGeminiKey : Option String
  geminiCall : String → String → Except String String
  groqCall : String → String → Except String String

/-- `get_ai_response(prompt, temp, max_tokens, model, gemini_key)`
(main.py lines 329-369).  The sampling parameters do not influence the
control flow; the provider oracles receive the resolved key / model id and
the prompt. -/
def get_ai_response (env : AIEnv) (prompt : String) (temp : ℚ) (maxTokens : Nat)
    (model : String) (geminiKey : Option String) : String :=
  if containsSub ("gemini".data) (strLower model).data then
    if !env.geminiAvailable then
      "Error: google-generativeai library not installed. Please install it to use Gemini."
    else
      match (if strTruthy geminiKey then geminiKey else env.systemGeminiKey : Option String) with
      | some k =>
          if k = "" then "Error: Gemini API Key not found. Please add it in Settings."
          else
            match env.geminiCall k prompt with
            | Except.ok t => t
            | Except.error e => "Error calling Gemini: " ++ e
      | none => "Error: Gemini API Key not found. Please add it in Settings."
  else
    match env.groqCall model prompt with
    | Except.ok t => t
    | Except.error _ => "Error: Could not get a response from AI."

/-- Scan for the lazy regex tail `.*?\)`: the characters before the first
`)` on the current line; `none` if a newline or the end of input comes
first (`.` does not match a newline). -/
def scanClose : List Char → Option (List Char)
  | [] => none
  | c :: rest =>
      if c = ')' then some []
      else if c = '\n' then none
      else (scanClose rest).map (fun mid => c :: mid)

/-- First match of the regex `O\(.*?\)` in the text, as used by
`analyze_complexity` (main.py line 375); returns the whole matched token. -/
def findBigO : List Char → Option (List Char)
  | [] => none
  | c :: rest =>
      if c = 'O' then
        match rest with
        | c2 :: rest2 =>
            if c2 = '(' then
              match scanClose rest2 with
              | some mid => some ('O' :: '(' :: (mid ++ [')']))
              | none => findBigO rest
            else findBigO rest
        | [] => none
      else findBigO rest

/-- The prompt `analyze_complexity` builds (main.py line 373). -/
def complexity_prompt (code : String) : String :=
  "Analyze the time complexity of this code. Return ONLY the Big-O notation (e.g., O(n)).\nCode:\n" ++ code

/-- `analyze_complexity(code, model, gemini_key)` (main.py lines 371-376):
ask the model gateway, take the first `O(...)` token of the response, fall
back to the constant `"O(n)"`. -/
def analyze_complexity (env : AIEnv) (code model : String) (geminiKey : Option String) : String :=
  let res := get_ai_response env (complexity_prompt code) (1 / 10) 20 model geminiKey
  match findBigO res.data with
  | some tok => String.mk tok
  | none => "O(n)"

/-- Result of `check_plagiarism`: the `"0% (New)"` sentinel, or a percentage
value (the numeric content of the `f"{round(max_sim * 100, 2)}%"` string). -/
inductive PlagLabel where
  | newCode : PlagLabel
  | percent : ℚ → PlagLabel
deriving DecidableEq

/-- `sum(1 for a, b in zip(code, old_code) if a == b)` (main.py line 386):
number of positions where the two strings agree. -/
def matchCount (a b : List Char) : Nat :=
  (a.zip b).countP (fun p => decide (p.1 = p.2))

/-- `matches / max(len(code), len(old_code)) if max(...) > 0 else 0`
(main.py line 387), over `ℚ`. -/
def simScore (code old : List Char) : ℚ :=
  let m := max code.length old.length
  if m = 0 then 0 else (matchCount code old : ℚ) / (m : ℚ)

/-- `round(x, 2)` on the percentage value (main.py line 391), over `ℚ`. -/
def roundTo2 (q : ℚ) : ℚ := ((round (q * 100) : ℤ) : ℚ) / 100

/-- `check_plagiarism(code)` (main.py lines 378-391), with the global
`CODE_DATABASE` passed and returned explicitly.  Empty code or an empty
corpus short-circuits to the sentinel; otherwise the maximum positional
similarity against all prior entries, as a rounded percentage.  In both
branches the submitted code is appended to the corpus. -/
def check_plagiarism (code : List Char) (db : List (List Char)) :
    PlagLabel × List (List Char) :=
  if code = [] ∨ db = [] then (PlagLabel.newCode, db ++ [code])
  else
    let maxSim := (db.map (simScore code)).foldl max 0
    (PlagLabel.percent (roundTo2 (maxSim * 100)), db ++ [code])

/-- The backtick character. -/
def bq : Char := Char.ofNat 96

/-- The closing-delimiter pattern of the fenced-block regex: a newline
followed by three backticks. -/
def nlFence : List Char := ['\n', bq, bq, bq]

/-- Python regex `\w` (ASCII range): letter, digit or underscore. -/
def isWordChar (c : Char) : Bool := c.isAlphanum || c = '_'

/-- Greedily drop the optional language tag `(?:\w+)?` of the fenced-block
regex.  Word characters never include the `\n` that must follow, so greedy
matching with backtracking is the same as dropping the maximal run. -/
def dropWordRun : List Char → List Char
  | [] => []
  | c :: cs => if isWordChar c then dropWordRun cs else c :: cs

/-- The lazy group `([\s\S]+?)` followed by `\n`-and-three-backticks: the
shortest non-empty prefix of the input after which `nlFence` follows.
`acc` holds the group characters matched so far. -/
def takeLazy (acc : List Char) : List Char → Option (List Char)
  | [] => none
  | c :: cs => if pfx nlFence cs then some (acc ++ [c]) else takeLazy (acc ++ [c]) cs

/-- Continuation of the fenced-block regex after the three opening
backticks: optional word-character language tag, a newline, then the lazy
body group. -/
def afterTicks (s : List Char) : Option (List Char) :=
  match dropWordRun s with
  | c :: body => if c = '\n' then takeLazy [] body else none
  | [] => none

/-- Third opening backtick of the fence. -/
def matchFence1 : List Char → Option (List Char)
  | c :: rest => if c = bq then afterTicks rest else none
  | [] => none

/-- Second opening backtick of the fence. -/
def matchFence2 : List Char → Option (List Char)
  | c :: rest => if c = bq then matchFence1 rest else none
  | [] => none

/-- Attempt to match the regex
`(three backticks)(?:\w+)?\n([\s\S]+?)\n(three backticks)` at the head of
the input, returning the captured group. -/
def matchAt (s : List Char) : Option (List Char) :=
  match s with
  | c :: rest => if c = bq then matchFence2 rest else none
  | [] => none

/-- `re.search` over the whole text: the captured group of the leftmost
match of the fenced-block regex, if any. -/
def searchFence : List Char → Option (List Char)
  | [] => none
  | c :: rest =>
      match matchAt (c :: rest) with
      | some g => some g
      | none => searchFence rest

/-- `code_match = re.search(r"(fence)(?:\w+)?\n([\s\S]+?)\n(fence)", text)`
then `code_match.group(1) if code_match else code` (main.py lines 517-518):
first fenced block, falling back to the original code. -/
def extractCode (text fallbackCode : List Char) : List Char :=
  (searchFence text).getD fallbackCode

/-- Modelled from the spec: `build_fenced_block(language, code)` from the
round-trip property of Section 8 — a markdown fence with a language tag
around the code, in the exact shape the extraction regex expects. -/
def buildFencedBlock (lang code : List Char) : List Char :=
  bq :: bq :: bq :: (lang ++ '\n' :: (code ++ nlFence))

/-- Does the text contain three consecutive backticks? -/
def hasTripleBacktick : List Char → Bool
  | c1 :: c2 :: c3 :: rest =>
      if c1 = bq ∧ c2 = bq ∧ c3 = bq then true
      else hasTripleBacktick (c2 :: c3 :: rest)
  | _ => false

/-- The two mutable globals of `process_code` that the review/rewrite flow
touches: `CODE_DATABASE` (the similarity corpus) and `STUDENT_STATS`
(per-student review counters, modelled as a total function where missing
keys map to 0, matching `STUDENT_STATS.get(name, 0)`). -/
structure ReviewState where
  codeDb : List (List Char)
  studentStats : String → Nat

/-- `STUDENT_STATS[u_name] = STUDENT_STATS.get(u_name, 0) + 1`
(main.py line 506). -/
def updateStats (f : String → Nat) (u : String) : String → Nat :=
  fun n => if n = u then f n + 1 else f n

/-- The JSON object returned by `process_code` (main.py lines 520-534).
`plagiarism = none` models the `"N/A"` string of the non-student branch. -/
structure ReviewResult where
  review : String
  rewritten_code : List Char
  complexity : String
  timeComplexityOriginal : String
  timeComplexityRewritten : String
  plagiarism : Option PlagLabel
  student_stats : Nat
  statsCritical : Nat
  statsHigh : Nat
  statsMedium : Nat
  statsLow : Nat

/-- Environment of the `process_code` handler: the model gateway
environment, `sanitize_html` (external `nh3` library, identity when the
security deps are absent), the global `COMPANY_POLICIES` text and the
per-user stored (already decrypted) Gemini key from `USER_SETTINGS`. -/
structure ProcEnv where
  aiEnv : AIEnv
  sanitize : String → String
  policies : String
  userGeminiKey : String → Option String

/-- `process_code` (main.py lines 485-534), the `/api/review` and
`/api/rewrite` handler, on its happy path: payload normalization, model
selection, student bookkeeping and plagiarism check, prompt construction,
gateway call, and response parsing.  The `check_maintenance` /
`check_guest_limit` guards can only abort the request before any of the
state here is touched; they read neither `CODE_DATABASE` nor
`STUDENT_STATS` and are omitted. -/
def processCode (env : ProcEnv) (p : Payload) (st : ReviewState) :
    ReviewResult × ReviewState :=
  let code := normCode p
  let u_type := normUserType p
  let u_name := normUserName p
  let model_key := pyGetD p.model "llama-3.3-70b"
  let gemini_key : Option String :=
    if containsSub ("gemini".data) model_key.data then env.userGeminiKey u_name else none
  let model_id :=
    if containsSub ("gemini".data) model_key.data then "gemini-pro"
    else if containsSub ("3.3".data) model_key.data then "llama-3.3-70b-versatile"
    else if containsSub ("405".data) model_key.data then "llama-3.1-405b-reasoning"
    else "mixtral-8x7b-32768"
  let stats' := if u_type = "student" then updateStats st.studentStats u_name else st.studentStats
  let plagDb : Option PlagLabel × List (List Char) :=
    if u_type = "student" then
      let r := check_plagiarism code.data st.codeDb
      (some r.1, r.2)
    else (none, st.codeDb)
  let review_prompt := inject_policies (create_balanced_review_prompt code u_type) u_type env.policies
  let review_text := env.sanitize (get_ai_response env.aiEnv review_prompt (3 / 10) 2000 model_id gemini_key)
  let rewritten := extractCode review_text.data code.data
  ({ review := review_text
     rewritten_code := rewritten
     complexity := analyze_complexity env.aiEnv code model_id gemini_key
     timeComplexityOriginal := analyze_complexity env.aiEnv code model_id gemini_key
     timeComplexityRewritten :=
       if rewritten = [] then "N/A"
       else analyze_complexity env.aiEnv (String.mk rewritten) model_id gemini_key
     plagiarism := plagDb.1
     student_stats := stats' u_name
     statsCritical := countSub markerCritical.data review_text.data
     statsHigh := countSub markerHigh.data review_text.data
     statsMedium := countSub markerMedium.data review_text.data
     statsLow := countSub markerLow.data review_text.data },
   { codeDb := plagDb.2, studentStats := stats' })

/-- A successful prefix test survives appending on the right. -/
theorem pfx_append : ∀ (p a b : List Char), pfx p a = true → pfx p (a ++ b) = true
  | [], _, _, _ => rfl
  | _ :: _, [], _, h => by simp [pfx] at h
  | x :: xs, y :: ys, b, h => by
      by_cases hxy : x = y
      · simp only [List.cons_append, pfx, if_pos hxy] at h ⊢
        exact pfx_append xs ys b h
      · simp only [pfx, if_neg hxy] at h
        exact absurd h (by simp)

/-- `pfx` is the boolean form of "is a prefix of". -/
theorem pfx_iff : ∀ (p s : List Char), pfx p s = true ↔ ∃ t, s = p ++ t
  | [], s => by simp [pfx]
  | x :: xs, [] => by
      simp only [pfx, List.cons_append]
      constructor
      · intro h; exact absurd h (by simp)
      · rintro ⟨t, ht⟩; exact absurd ht (by simp)
  | x :: xs, y :: ys => by
      unfold pfx
      by_cases hxy : x = y
      · subst hxy
        rw [if_pos rfl, pfx_iff xs ys]
        constructor
        · rintro ⟨t, rfl⟩; exact ⟨t, rfl⟩
        · rintro ⟨t, ht⟩
          injection ht with h1 h2
          exact ⟨t, h2⟩
      · rw [if_neg hxy]
        constructor
        · intro h; exact absurd h (by simp)
        · rintro ⟨t, ht⟩
          injection ht with h1 h2
          exact absurd h1.symm hxy

/-- The empty pattern occurs in every text. -/
theorem containsSub_nil : ∀ (s : List Char), containsSub [] s = true
  | [] => rfl
  | _ :: rest => by simp [containsSub, pfx]

/-- A substring occurrence survives appending on the right. -/
theorem containsSub_append_left :
    ∀ (p a b : List Char), containsSub p a = true → containsSub p (a ++ b) = true
  | p, [], b, h => by
      have hp : p = [] := by
        cases p with
        | nil => rfl
        | cons x xs => simp [containsSub, List.isEmpty] at h
      subst hp
      exact containsSub_nil b
  | p, y :: ys, b, h => by
      simp only [containsSub, Bool.or_eq_true] at h
      rcases h with h | h
      · simp only [List.cons_append, containsSub, Bool.or_eq_true]
        exact Or.inl (pfx_append p (y :: ys) b h)
      · simp only [List.cons_append, containsSub, Bool.or_eq_true]
        exact Or.inr (containsSub_append_left p ys b h)

/-- If the pattern does not occur in the text, the occurrence count is 0. -/
theorem countSub_eq_zero :
    ∀ (pat t : List Char), containsSub pat t = false → countSub pat t = 0
  | _, [], _ => rfl
  | pat, c :: rest, h => by
      simp only [containsSub, Bool.or_eq_false_iff] at h
      show countSubAux pat 0 (c :: rest) = 0
      unfold countSubAux
      rw [if_neg (by simp [h.1])]
      exact countSub_eq_zero pat rest h.2

/-- An upper bound for every element and the seed bounds a `foldl max`. -/
theorem foldl_max_le {α : Type} [LinearOrder α] :
    ∀ (l : List α) (b c : α), b ≤ c → (∀ x ∈ l, x ≤ c) → l.foldl max b ≤ c
  | [], _, _, hb, _ => hb
  | x :: xs, b, c, hb, hl =>
      foldl_max_le xs (max b x) c (max_le hb (hl x (by simp)))
        (fun y hy => hl y (by simp [hy]))

/-- The seed is a lower bound of a `foldl max`. -/
theorem le_foldl_max_init {α : Type} [LinearOrder α] :
    ∀ (l : List α) (b : α), b ≤ l.foldl max b
  | [], b => le_refl b
  | x :: xs, b => le_trans (le_max_left b x) (le_foldl_max_init xs (max b x))

/-- Every list element is a lower bound of a `foldl max`. -/
theorem le_foldl_max_of_mem {α : Type} [LinearOrder α] :
    ∀ (l : List α) (b a : α), a ∈ l → a ≤ l.foldl max b
  | [], _, a, ha => absurd ha (List.not_mem_nil a)
  | x :: xs, b, a, ha => by
      rcases List.mem_cons.mp ha with h | h
      · subst h
        exact le_trans (le_max_right b a) (le_foldl_max_init xs (max b a))
      · exact le_foldl_max_of_mem xs (max b x) a h

/-- A string agrees with itself at every position. -/
theorem matchCount_self : ∀ (a : List Char), matchCount a a = a.length
  | [] => rfl
  | c :: cs => by
      have ih := matchCount_self cs
      simp only [matchCount, List.zip_cons_cons, List.countP_cons] at ih ⊢
      simp [ih]

/-- The positional match count never exceeds the longer length. -/
theorem matchCount_le_max (a b : List Char) :
    matchCount a b ≤ max a.length b.length := by
  have h1 : matchCount a b ≤ (a.zip b).length := List.countP_le_length _
  rw [List.length_zip] at h1
  exact le_trans h1 (le_trans (min_le_left _ _) (le_max_left _ _))

/-- Similarity scores are at most 1. -/
theorem simScore_le_one (a b : List Char) : simScore a b ≤ 1 := by
  unfold simScore
  by_cases hm : max a.length b.length = 0
  · simp [hm]
  · rw [if_neg hm]
    have hpos : (0 : ℚ) < ((max a.length b.length : Nat) : ℚ) := by
      exact_mod_cast Nat.pos_of_ne_zero hm
    rw [div_le_one hpos]
    exact_mod_cast matchCount_le_max a b

/-- A non-empty string has similarity 1 with itself. -/
theorem simScore_self {a : List Char} (h : a ≠ []) : simScore a a = 1 := by
  unfold simScore
  have hlen : a.length ≠ 0 := by
    simpa [List.length_eq_zero] using h
  rw [max_self, if_neg hlen, matchCount_self]
  exact div_self (by exact_mod_cast hlen)

/-- Rounding the exact value 100 to two decimals gives 100. -/
theorem roundTo2_hundred : roundTo2 100 = 100 := by
  unfold roundTo2
  have h : ((100 : ℚ) * 100) = ((10000 : ℤ) : ℚ) := by norm_num
  rw [h, round_intCast]
  norm_num

/-- A word character is never a backtick. -/
theorem word_ne_bq {c : Char} (h : isWordChar c = true) : c ≠ bq := by
  intro he
  subst he
  exact absurd h (by decide)

/-- Dropping the word run of a word-only tag stops exactly at the newline. -/
theorem dropWordRun_word :
    ∀ (l rest : List Char), (∀ c ∈ l, isWordChar c = true) →
      dropWordRun (l ++ '\n' :: rest) = '\n' :: rest
  | [], rest, _ => by
      show dropWordRun ('\n' :: rest) = '\n' :: rest
      unfold dropWordRun
      rw [if_neg (by decide)]
  | c :: l, rest, h => by
      show dropWordRun (c :: (l ++ '\n' :: rest)) = '\n' :: rest
      unfold dropWordRun
      rw [if_pos (h c (List.mem_cons_self c l))]
      exact dropWordRun_word l rest (fun x hx => h x (List.mem_cons_of_mem c hx))

/-- Losing the head of a text cannot create a triple backtick. -/
theorem hasTriple_tail :
    ∀ {c : Char} {cs : List Char},
      hasTripleBacktick (c :: cs) = false → hasTripleBacktick cs = false
  | _, [], _ => rfl
  | _, [_], _ => rfl
  | c, x :: y :: rest, h => by
      unfold hasTripleBacktick at h
      split at h
      · exact absurd h (by simp)
      · exact h

/-- The close delimiter `nlFence` is not a prefix of `ds ++ nlFence` when
`ds` is a non-empty text without a triple backtick: an early close would
need three consecutive backticks inside `ds`. -/
theorem nlFence_not_pfx :
    ∀ (ds : List Char), ds ≠ [] → hasTripleBacktick ds = false →
      pfx nlFence (ds ++ nlFence) = false
  | [], hne, _ => absurd rfl hne
  | ds, _, h3 => by
      rw [Bool.eq_false_iff]
      intro hp
      obtain ⟨t, ht⟩ := (pfx_iff _ _).mp hp
      match ds with
      | [a] =>
          simp only [nlFence, List.cons_append, List.nil_append, List.cons.injEq] at ht
          exact absurd ht.2.1 (by decide)
      | [a, b] =>
          simp only [nlFence, List.cons_append, List.nil_append, List.cons.injEq] at ht
          exact absurd ht.2.2.1 (by decide)
      | [a, b, c] =>
          simp only [nlFence, List.cons_append, List.nil_append, List.cons.injEq] at ht
          exact absurd ht.2.2.2.1 (by decide)
      | a :: b :: c :: d :: rest =>
          simp only [nlFence, List.cons_append, List.cons.injEq] at ht
          obtain ⟨ha, hb, hc, hd, _⟩ := ht
          subst ha; subst hb; subst hc; subst hd
          unfold hasTripleBacktick at h3
          rw [if_neg (by decide)] at h3
          unfold hasTripleBacktick at h3
          rw [if_pos ⟨rfl, rfl, rfl⟩] at h3
          exact absurd h3 (by simp)

/-- The lazy body group matches exactly the fenced code when the code is
non-empty and contains no triple backtick. -/
theorem takeLazy_fenced :
    ∀ (code acc : List Char), code ≠ [] → hasTripleBacktick code = false →
      takeLazy acc (code ++ nlFence) = some (acc ++ code)
  | [], _, hne, _ => absurd rfl hne
  | [d], acc, _, _ => by
      show takeLazy acc (d :: nlFence) = some (acc ++ [d])
      unfold takeLazy
      rw [if_pos (by decide)]
  | d :: e :: ds, acc, _, h3 => by
      have htail : hasTripleBacktick (e :: ds) = false := hasTriple_tail h3
      have hpfx : pfx nlFence ((e :: ds) ++ nlFence) = false :=
        nlFence_not_pfx (e :: ds) (by simp) htail
      rw [List.cons_append] at hpfx
      show takeLazy acc (d :: ((e :: ds) ++ nlFence)) = some (acc ++ (d :: e :: ds))
      unfold takeLazy
      rw [if_neg (by simp [hpfx])]
      rw [takeLazy_fenced (e :: ds) (acc ++ [d]) (by simp) htail]
      simp

/-- After a word-only language tag, the regex continuation finds the
newline and enters the lazy body. -/
theorem afterTicks_fenced (lang code : List Char)
    (hw : ∀ c ∈ lang, isWordChar c = true) :
    afterTicks (lang ++ '\n' :: (code ++ nlFence)) = takeLazy [] (code ++ nlFence) := by
  unfold afterTicks
  rw [dropWordRun_word lang _ hw]
  rfl

/-- Matching the fenced-block regex at the start of a built fence reduces to
the lazy body scan. -/
theorem matchAt_fenced (lang code : List Char)
    (hw : ∀ c ∈ lang, isWordChar c = true) :
    matchAt (buildFencedBlock lang code) = takeLazy [] (code ++ nlFence) := by
  have h : matchAt (bq :: bq :: bq :: (lang ++ '\n' :: (code ++ nlFence))) =
      afterTicks (lang ++ '\n' :: (code ++ nlFence)) := rfl
  show matchAt (bq :: bq :: bq :: (lang ++ '\n' :: (code ++ nlFence))) = _
  rw [h]
  exact afterTicks_fenced lang code hw

/-- A match at the head makes the leftmost search succeed immediately. -/
theorem searchFence_head {c : Char} {rest g : List Char}
    (h : matchAt (c :: rest) = some g) : searchFence (c :: rest) = some g := by
  unfold searchFence
  rw [h]

/-- A failed match at the head passes the leftmost search to the tail. -/
theorem searchFence_step {c : Char} {rest : List Char}
    (h : matchAt (c :: rest) = none) : searchFence (c :: rest) = searchFence rest := by
  have e : searchFence (c :: rest) =
      (match matchAt (c :: rest) with
       | some g => some g
       | none => searchFence rest) := rfl
  rw [e, h]

/-- A candidate start that is not a backtick cannot begin a fence. -/
theorem matchAt_not_bq {c : Char} (rest : List Char) (h : c ≠ bq) :
    matchAt (c :: rest) = none := by
  have e : matchAt (c :: rest) = if c = bq then matchFence2 rest else none := rfl
  rw [e, if_neg h]

/-- The second fence layer fails on a word-only tag followed by a newline. -/
theorem matchFence2_word :
    ∀ (l rest : List Char), (∀ c ∈ l, isWordChar c = true) →
      matchFence2 (l ++ '\n' :: rest) = none
  | [], rest, _ => by
      show matchFence2 ('\n' :: rest) = none
      have e : matchFence2 ('\n' :: rest) =
          if ('\n' : Char) = bq then matchFence1 rest else none := rfl
      rw [e, if_neg (by decide)]
  | c :: l, rest, h => by
      show matchFence2 (c :: (l ++ '\n' :: rest)) = none
      have e : matchFence2 (c :: (l ++ '\n' :: rest)) =
          if c = bq then matchFence1 (l ++ '\n' :: rest) else none := rfl
      rw [e, if_neg (word_ne_bq (h c (List.mem_cons_self c l)))]

/-- The third fence layer fails on a word-only tag followed by a newline. -/
theorem matchFence1_word :
    ∀ (l rest : List Char), (∀ c ∈ l, isWordChar c = true) →
      matchFence1 (l ++ '\n' :: rest) = none
  | [], rest, _ => by
      show matchFence1 ('\n' :: rest) = none
      have e : matchFence1 ('\n' :: rest) =
          if ('\n' : Char) = bq then afterTicks rest else none := rfl
      rw [e, if_neg (by decide)]
  | c :: l, rest, h => by
      show matchFence1 (c :: (l ++ '\n' :: rest)) = none
      have e : matchFence1 (c :: (l ++ '\n' :: rest)) =
          if c = bq then afterTicks (l ++ '\n' :: rest) else none := rfl
      rw [e, if_neg (word_ne_bq (h c (List.mem_cons_self c l)))]

/-- No fence match starts inside a word-only tag followed by the closing
delimiter: the leftmost search over that remainder fails. -/
theorem searchFence_tag_tail :
    ∀ (l : List Char), (∀ c ∈ l, isWordChar c = true) →
      searchFence (l ++ '\n' :: nlFence) = none
  | [], _ => by decide
  | c :: l, h => by
      have hc : c ≠ bq := word_ne_bq (h c (List.mem_cons_self c l))
      show searchFence (c :: (l ++ '\n' :: nlFence)) = none
      rw [searchFence_step (matchAt_not_bq _ hc)]
      exact searchFence_tag_tail l (fun x hx => h x (List.mem_cons_of_mem c hx))

/-- A fence built around the empty code never matches the regex (the lazy
group needs at least one character), so extraction falls back. -/
theorem searchFence_empty_code (lang : List Char)
    (hw : ∀ c ∈ lang, isWordChar c = true) :
    searchFence (buildFencedBlock lang []) = none := by
  have h0 : matchAt (buildFencedBlock lang []) = none := by
    rw [matchAt_fenced lang [] hw]
    decide
  have hshape : buildFencedBlock lang [] = bq :: bq :: bq :: (lang ++ '\n' :: nlFence) := rfl
  rw [hshape] at h0 ⊢
  rw [searchFence_step h0]
  have h1 : matchAt (bq :: bq :: (lang ++ '\n' :: nlFence)) = none := by
    have : matchAt (bq :: bq :: (lang ++ '\n' :: nlFence)) =
        matchFence1 (lang ++ '\n' :: nlFence) := rfl
    rw [this]
    exact matchFence1_word lang nlFence hw
  rw [searchFence_step h1]
  have h2 : matchAt (bq :: (lang ++ '\n' :: nlFence)) = none := by
    have : matchAt (bq :: (lang ++ '\n' :: nlFence)) =
        matchFence2 (lang ++ '\n' :: nlFence) := rfl
    rw [this]
    exact matchFence2_word lang nlFence hw
  rw [searchFence_step h2]
  exact searchFence_tag_tail lang hw

/-- Without three consecutive backticks no fence match can start anywhere. -/
theorem matchAt_no_triple :
    ∀ (s : List Char), hasTripleBacktick s = false → matchAt s = none
  | [], _ => rfl
  | [c], _ => by
      by_cases hc : c = bq
      · subst hc; rfl
      · exact matchAt_not_bq [] hc
  | [c, d], _ => by
      by_cases hc : c = bq
      · subst hc
        by_cases hd : d = bq
        · subst hd; rfl
        · show matchAt (bq :: [d]) = none
          have e1 : matchAt (bq :: [d]) = matchFence2 [d] := rfl
          have e2 : matchFence2 [d] = if d = bq then matchFence1 [] else none := rfl
          rw [e1, e2, if_neg hd]
      · exact matchAt_not_bq [d] hc
  | c :: d :: e :: rest, h => by
      by_cases hc : c = bq
      · by_cases hd : d = bq
        · by_cases he : e = bq
          · subst hc; subst hd; subst he
            unfold hasTripleBacktick at h
            rw [if_pos ⟨rfl, rfl, rfl⟩] at h
            exact absurd h (by simp)
          · subst hc; subst hd
            have e1 : matchAt (bq :: bq :: e :: rest) = matchFence1 (e :: rest) := rfl
            have e2 : matchFence1 (e :: rest) =
                if e = bq then afterTicks rest else none := rfl
            rw [e1, e2, if_neg he]
        · subst hc
          have e1 : matchAt (bq :: d :: e :: rest) = matchFence2 (d :: e :: rest) := rfl
          have e2 : matchFence2 (d :: e :: rest) =
              if d = bq then matchFence1 (e :: rest) else none := rfl
          rw [e1, e2, if_neg hd]
      · exact matchAt_not_bq _ hc

/-- Without three consecutive backticks the leftmost search fails. -/
theorem searchFence_no_triple :
    ∀ (s : List Char), hasTripleBacktick s = false → searchFence s = none
  | [], _ => rfl
  | c :: rest, h => by
      rw [searchFence_step (matchAt_no_triple (c :: rest) h)]
      exact searchFence_no_triple rest (hasTriple_tail h)

/-- Modelled from the spec: the case-insensitive occurrence count that
Section 4.6 ascribes to the severity-count extraction ("case-insensitive
occurrence counts of four fixed literal markers"), for comparison with the
code's `countSub`. -/
def specCountCaseless (pat s : List Char) : Nat :=
  countSub (pat.map Char.toLower) (s.map Char.toLower)

/-- A payload with every key absent. -/
def pEmpty : Payload :=
  { code := none, text := none, user_type := none, userType := none, role := none
    student_name := none, username := none, email := none, model := none }

/-- A payload carrying the user type only under the `userType` spelling. -/
def pUserTypeOnly : Payload := { pEmpty with code := some "x", userType := some "student" }

/-- A payload with an explicit non-student user type. -/
def pDeveloper : Payload := { pEmpty with code := some "print(1)", user_type := some "developer" }

/-- A benign gateway environment: Groq succeeds with a fixed text. -/
def envOk : AIEnv :=
  { geminiAvailable := false, systemGeminiKey := none
    geminiCall := fun _ _ => Except.error "offline"
    groqCall := fun _ _ => Except.ok "All good" }

/-- A gateway environment in which every provider call raises. -/
def envFail : AIEnv :=
  { geminiAvailable := true, systemGeminiKey := some "sk"
    geminiCall := fun _ _ => Except.error "boom"
    groqCall := fun _ _ => Except.error "boom" }

/-- A handler environment around `envOk` with no policies and no stored
keys; `sanitize_html` is the identity (its behavior when the optional
security dependencies are absent). -/
def env0 : ProcEnv :=
  { aiEnv := envOk, sanitize := fun s => s, policies := "", userGeminiKey := fun _ => none }

/-- The initial state: empty corpus, all student counters at zero. -/
def st0 : ReviewState := { codeDb := [], studentStats := fun _ => 0 }

/-- A doubly nested loop, the shape the spec's offline heuristic maps to
quadratic complexity. -/
def nestedLoopCode : String :=
  "for i in range(n):\n    for j in range(n):\n        total = total + 1"

/-- A call to a sort builtin, the shape the spec's offline heuristic maps
to n log n. -/
def sortCode : String := "sorted(arr)"

/-- C9: for every state of the corpus, including a non-empty one, an empty
code submission returns the `"0% (New)"` sentinel and appends the empty
string to the corpus, so the sentinel is not exclusive to the first-ever
submission. -/
theorem c9_empty_code_sentinel :
    ∀ (db : List (List Char)),
      check_plagiarism [] db = (PlagLabel.newCode, db ++ [[]]) := by
  intro db
  unfold check_plagiarism
  rw [if_pos (Or.inl rfl)]

/-- C6 counterexample: with a non-empty corpus and empty code the claim's
"otherwise" formula would yield the percentage `0`, but the code returns
the `"0% (New)"` sentinel (and the sentinel differs from every percentage
result). -/
theorem c6_counterexample :
    check_plagiarism [] [['a']] = (PlagLabel.newCode, [['a'], []]) ∧
      PlagLabel.newCode ≠ PlagLabel.percent 0 :=
  ⟨rfl, by decide⟩

/-- C6 amended: the sentinel-and-append behavior on an empty corpus, the
unconditional append of the submission, and the percentage formula
restricted to non-empty code (empty code short-circuits to the sentinel):
in particular resubmitting a non-empty string already in the corpus yields
exactly 100. -/
theorem c6_similarity :
    (∀ code : List Char, check_plagiarism code [] = (PlagLabel.newCode, [code])) ∧
    (∀ (code : List Char) (db : List (List Char)),
        (check_plagiarism code db).2 = db ++ [code]) ∧
    (∀ (code : List Char) (db : List (List Char)), code ≠ [] → code ∈ db →
        (check_plagiarism code db).1 = PlagLabel.percent 100) := by
  refine ⟨?_, ?_, ?_⟩
  · intro code
    unfold check_plagiarism
    rw [if_pos (Or.inr rfl)]
    rfl
  · intro code db
    unfold check_plagiarism
    by_cases h : code = [] ∨ db = []
    · rw [if_pos h]
    · rw [if_neg h]
  · intro code db hc hmem
    have hdb : db ≠ [] := by
      intro h
      subst h
      exact absurd hmem (List.not_mem_nil code)
    unfold check_plagiarism
    rw [if_neg (by simp [hc, hdb])]
    have hone : (1 : ℚ) ∈ db.map (simScore code) :=
      List.mem_map.mpr ⟨code, hmem, simScore_self hc⟩
    have hle : (db.map (simScore code)).foldl max 0 ≤ 1 := by
      refine foldl_max_le _ 0 1 (by norm_num) ?_
      intro x hx
      obtain ⟨y, _, rfl⟩ := List.mem_map.mp hx
      exact simScore_le_one code y
    have hge : (1 : ℚ) ≤ (db.map (simScore code)).foldl max 0 :=
      le_foldl_max_of_mem _ 0 1 hone
    have hmax : (db.map (simScore code)).foldl max 0 = 1 := le_antisymm hle hge
    simp only [hmax, one_mul, roundTo2_hundred]

/-- C6 witness: the amended theorem evaluated at concrete inputs. -/
theorem c6_similarity_witness :
    check_plagiarism ['a'] [] = (PlagLabel.newCode, [['a']]) ∧
      (check_plagiarism ['b'] [['c']]).2 = [['c'], ['b']] ∧
      (check_plagiarism ['a'] [['a']]).1 = PlagLabel.percent 100 :=
  ⟨c6_similarity.1 ['a'], c6_similarity.2.1 ['b'] [['c']],
    c6_similarity.2.2 ['a'] [['a']] (by decide) (by decide)⟩

/-- C5: extracting code from a fenced block built around any code without a
triple backtick returns that code unchanged (with the original code as
fallback), and when the LLM output contains no fence at all the original
input code is returned unchanged. -/
theorem c5_code_extraction :
    (∀ lang code : List Char, (∀ c ∈ lang, isWordChar c = true) →
        hasTripleBacktick code = false →
        extractCode (buildFencedBlock lang code) code = code) ∧
    (∀ text fb : List Char, hasTripleBacktick text = false →
        extractCode text fb = fb) := by
  constructor
  · intro lang code hw h3
    by_cases hc : code = []
    · subst hc
      unfold extractCode
      rw [searchFence_empty_code lang hw]
      rfl
    · have hmatch : matchAt (buildFencedBlock lang code) = some code := by
        rw [matchAt_fenced lang code hw]
        have := takeLazy_fenced code [] hc h3
        simpa using this
      unfold extractCode
      have hshape : buildFencedBlock lang code =
          bq :: (bq :: bq :: (lang ++ '\n' :: (code ++ nlFence))) := rfl
      rw [hshape] at hmatch ⊢
      rw [searchFence_head hmatch]
      rfl
  · intro text fb h3
    unfold extractCode
    rw [searchFence_no_triple text h3]
    rfl

/-- C5 witness: the round trip and the no-fence fallback evaluated at
concrete inputs. -/
theorem c5_code_extraction_witness :
    extractCode (buildFencedBlock ("py".data) ("x = 1".data)) ("x = 1".data) = "x = 1".data ∧
      extractCode ("no fence here".data) ("orig".data) = "orig".data :=
  ⟨c5_code_extraction.1 ("py".data) ("x = 1".data) (by decide) (by decide),
    c5_code_extraction.2 ("no fence here".data) ("orig".data) (by decide)⟩

/-- C1 counterexample: the prompt built for a developer request contains
none of the severity markers (in particular not `### Critical`), and even
the enterprise prompt never requests `### Medium`; so the prompt/parser
marker contract of the claim does not hold. -/
theorem c1_counterexample :
    containsSub markerCritical.data (create_balanced_review_prompt "x" "developer").data
        = false ∧
      containsSub markerHigh.data (create_balanced_review_prompt "x" "developer").data
        = false ∧
      containsSub markerMedium.data (create_balanced_review_prompt "x" "enterprise").data
        = false ∧
      containsSub markerLow.data (create_balanced_review_prompt "x" "enterprise").data
        = false := by
  refine ⟨?_, ?_, ?_, ?_⟩ <;> decide

/-- C1 amended: only the enterprise persona's prompt requests `### Critical`
and `### High` (for every code body); the persona text resolved for any
other user type (student, developer, or unrecognized) contains none of the
four markers, and no persona ever requests `### Medium` or `### Low`. -/
theorem c1_prompt_markers :
    (∀ code : String,
        containsSub markerCritical.data
            (create_balanced_review_prompt code "enterprise").data = true ∧
          containsSub markerHigh.data
            (create_balanced_review_prompt code "enterprise").data = true) ∧
    (∀ ut : String, ut ≠ "enterprise" →
        containsSub markerCritical.data (resolvePersona ut).data = false ∧
          containsSub markerHigh.data (resolvePersona ut).data = false ∧
          containsSub markerMedium.data (resolvePersona ut).data = false ∧
          containsSub markerLow.data (resolvePersona ut).data = false) ∧
    (∀ ut : String,
        containsSub markerMedium.data (resolvePersona ut).data = false ∧
          containsSub markerLow.data (resolvePersona ut).data = false) := by
  have hres : ∀ ut : String, resolvePersona ut = studentPersona ∨
      resolvePersona ut = enterprisePersona ∨ resolvePersona ut = developerPersona := by
    intro ut
    unfold resolvePersona
    by_cases h1 : ut = "student"
    · rw [if_pos h1]; exact Or.inl rfl
    · rw [if_neg h1]
      by_cases h2 : ut = "enterprise"
      · rw [if_pos h2]; exact Or.inr (Or.inl rfl)
      · rw [if_neg h2]; exact Or.inr (Or.inr rfl)
  refine ⟨?_, ?_, ?_⟩
  · intro code
    have hpe : create_balanced_review_prompt code "enterprise" =
        enterprisePersona ++ "\n" ++ code := by
      unfold create_balanced_review_prompt resolvePersona
      rw [if_neg (by decide), if_pos rfl]
    rw [hpe]
    constructor
    · rw [String.data_append, String.data_append]
      exact containsSub_append_left _ _ _
        (containsSub_append_left _ _ _ (by decide))
    · rw [String.data_append, String.data_append]
      exact containsSub_append_left _ _ _
        (containsSub_append_left _ _ _ (by decide))
  · intro ut hut
    have : resolvePersona ut = studentPersona ∨ resolvePersona ut = developerPersona := by
      unfold resolvePersona
      by_cases h1 : ut = "student"
      · rw [if_pos h1]; exact Or.inl rfl
      · rw [if_neg h1, if_neg hut]; exact Or.inr rfl
    rcases this with h | h <;> rw [h] <;> exact ⟨by decide, by decide, by decide, by decide⟩
  · intro ut
    rcases hres ut with h | h | h <;> rw [h] <;> exact ⟨by decide, by decide⟩

/-- C1 witness: the amended statement evaluated at concrete inputs. -/
theorem c1_prompt_markers_witness :
    containsSub markerCritical.data
        (create_balanced_review_prompt "print(1)" "enterprise").data = true ∧
      containsSub markerCritical.data (resolvePersona "student").data = false ∧
      containsSub markerMedium.data (resolvePersona "enterprise").data = false :=
  ⟨(c1_prompt_markers.1 "print(1)").1,
    (c1_prompt_markers.2.1 "student" (by decide)).1,
    (c1_prompt_markers.2.2 "enterprise").1⟩

/-- C4 counterexample: the code counts markers case-sensitively — the raw
text `"### critical"` contains the marker up to case, the spec-modelled
case-insensitive count sees one occurrence, but the code's count is 0. -/
theorem c4_counterexample :
    countSub markerCritical.data ("### critical\nSQLi found\n".data) = 0 ∧
      specCountCaseless markerCritical.data ("### critical\nSQLi found\n".data) = 1 := by
  refine ⟨?_, ?_⟩ <;> decide

/-- C4 amended: the severity-count extraction computes case-SENSITIVE
non-overlapping occurrence counts of the four literal markers; the spec's
scenario text parses to `{critical := 1, high := 0, medium := 0, low := 0}`,
and any text in which a marker does not occur yields count 0 for it. -/
theorem c4_severity_counts :
    (countSub markerCritical.data ("### Strengths\n...\n### Critical\nSQLi found\n".data) = 1 ∧
      countSub markerHigh.data ("### Strengths\n...\n### Critical\nSQLi found\n".data) = 0 ∧
      countSub markerMedium.data ("### Strengths\n...\n### Critical\nSQLi found\n".data) = 0 ∧
      countSub markerLow.data ("### Strengths\n...\n### Critical\nSQLi found\n".data) = 0) ∧
    (∀ pat t : List Char, containsSub pat t = false → countSub pat t = 0) := by
  exact ⟨⟨by decide, by decide, by decide, by decide⟩, countSub_eq_zero⟩

/-- C4 witness: the amended statement evaluated at concrete inputs. -/
theorem c4_severity_counts_witness :
    countSub markerLow.data ("nothing to see".data) = 0 ∧
      countSub markerCritical.data ("### Strengths\n...\n### Critical\nSQLi found\n".data) = 1 :=
  ⟨c4_severity_counts.2 markerLow.data ("nothing to see".data) (by decide),
    c4_severity_counts.1.1⟩

/-- C8 counterexample: a payload carrying the user type only under the
`userType` key resolves to the `developer` default, not to the value it
carries — the handler reads only `user_type` and `role`. -/
theorem c8_counterexample :
    pUserTypeOnly.userType = some "student" ∧
      normUserType pUserTypeOnly = "developer" ∧
      resolvePersona (normUserType pUserTypeOnly) = developerPersona ∧
      ("developer" : String) ≠ "student" :=
  ⟨rfl, rfl, rfl, by decide⟩

/-- C8 amended: the user type is read from the two keys `user_type` and
`role` only — the `userType` key never influences resolution; a payload
with neither key (or with empty values) resolves to `developer`; and every
value outside the known persona set resolves to the developer persona
verbatim. -/
theorem c8_user_type_resolution :
    (∀ (p : Payload) (v : Option String),
        normUserType { p with userType := v } = normUserType p) ∧
    (∀ p : Payload, (p.user_type = none ∨ p.user_type = some "") →
        (p.role = none ∨ p.role = some "") → normUserType p = "developer") ∧
    (∀ ut : String, ut ≠ "student" → ut ≠ "enterprise" →
        resolvePersona ut = developerPersona) := by
  refine ⟨?_, ?_, ?_⟩
  · intro p v
    rfl
  · intro p h1 h2
    unfold normUserType
    rcases h1 with h | h <;> rcases h2 with h' | h' <;> simp [h, h', pyOr]
  · intro ut h1 h2
    unfold resolvePersona
    rw [if_neg h1, if_neg h2]

/-- C8 witness: the amended statement evaluated at concrete inputs. -/
theorem c8_user_type_resolution_witness :
    normUserType { pUserTypeOnly with userType := some "zz" } = normUserType pUserTypeOnly ∧
      normUserType pEmpty = "developer" ∧
      resolvePersona "manager" = developerPersona :=
  ⟨c8_user_type_resolution.1 pUserTypeOnly (some "zz"),
    c8_user_type_resolution.2.1 pEmpty (Or.inl rfl) (Or.inl rfl),
    c8_user_type_resolution.2.2 "manager" (by decide) (by decide)⟩

/-- C2 counterexample: a payload with both `code` and `text` absent is not
rejected at all — no `EmptyInputError` exists in the handler: the code
normalizes to the empty string and the pipeline returns an ordinary
result. -/
theorem c2_counterexample :
    normCode pEmpty = "" ∧
      (processCode env0 pEmpty st0).1.review = "All good" ∧
      (processCode env0 pEmpty st0).1.plagiarism = none ∧
      (processCode env0 pEmpty st0).2.codeDb = [] := by
  refine ⟨rfl, ?_, ?_, ?_⟩ <;> rfl

/-- C2 amended: normalization is total and never fails: the code field
normalizes to the empty string exactly when both `code` and `text` are
absent or empty (and the request then proceeds normally); whitespace-only
code is kept verbatim, not trimmed and not treated as empty. -/
theorem c2_normalization_total :
    (∀ p : Payload, normCode p = "" ↔
        ((p.code = none ∨ p.code = some "") ∧ (p.text = none ∨ p.text = some ""))) ∧
      normCode { pEmpty with code := some "   " } = "   " := by
  constructor
  · intro p
    rcases p with ⟨c, t, u1, u2, u3, u4, u5, u6, u7⟩
    cases c with
    | none =>
        cases t with
        | none => simp [normCode, pyOr]
        | some s => by_cases hs : s = "" <;> simp [normCode, pyOr, hs]
    | some s =>
        cases t with
        | none => by_cases hs : s = "" <;> simp [normCode, pyOr, hs]
        | some s2 =>
            by_cases hs : s = "" <;> by_cases hs2 : s2 = "" <;>
              simp [normCode, pyOr, hs, hs2]
  · rfl

/-- C3: the model gateway never raises — for every environment, prompt and
model identifier the result is either the dispatched provider's successful
text or an ordinary string beginning with `"Error"`; every provider
failure (missing library, missing key, raised exception) lands in the
second case. -/
theorem c3_gateway_soft_failure :
    ∀ (env : AIEnv) (prompt : String) (temp : ℚ) (maxTokens : Nat)
      (model : String) (gk : Option String),
      pfx ("Error".data) (get_ai_response env prompt temp maxTokens model gk).data = true ∨
        (∃ k, env.geminiCall k prompt =
            Except.ok (get_ai_response env prompt temp maxTokens model gk)) ∨
        env.groqCall model prompt =
          Except.ok (get_ai_response env prompt temp maxTokens model gk) := by
  intro env prompt temp maxTokens model gk
  unfold get_ai_response
  split
  · split
    · exact Or.inl (by decide)
    · split
      · next k heq =>
          split
          · exact Or.inl (by decide)
          · split
            · next t ht => exact Or.inr (Or.inl ⟨k, by rw [ht]⟩)
            · next e he =>
                refine Or.inl ?_
                rw [String.data_append]
                exact pfx_append _ _ _ (by decide)
      · exact Or.inl (by decide)
  · split
    · next t ht => exact Or.inr (Or.inr (by rw [ht]))
    · exact Or.inl (by decide)

/-- C7 counterexample: when the AI call fails there is no offline
heuristic — nested loops and sort calls both fall back to the constant
`"O(n)"`, not to the `"O(n²)"` / `"O(n log n)"` the claim requires. -/
theorem c7_counterexample :
    analyze_complexity envFail nestedLoopCode "llama-3.3-70b-versatile" none = "O(n)" ∧
      ("O(n)" : String) ≠ "O(n²)" ∧
      analyze_complexity envFail sortCode "llama-3.3-70b-versatile" none = "O(n)" ∧
      ("O(n)" : String) ≠ "O(n log n)" := by
  refine ⟨?_, by decide, ?_, by decide⟩ <;> rfl

/-- C7 amended: no offline complexity heuristic exists — whenever the AI
response contains no `O(...)` token, and in particular whenever the Groq
call raises (so the response is the fixed error text), `analyze_complexity`
returns the constant fallback `"O(n)"` for every input code. -/
theorem c7_complexity_fallback :
    (∀ (env : AIEnv) (code model : String) (gk : Option String),
        findBigO (get_ai_response env (complexity_prompt code) (1 / 10) 20 model gk).data
            = none →
          analyze_complexity env code model gk = "O(n)") ∧
    (∀ (env : AIEnv) (code : String) (gk : Option String) (e : String),
        env.groqCall "llama-3.3-70b-versatile" (complexity_prompt code) = Except.error e →
          analyze_complexity env code "llama-3.3-70b-versatile" gk = "O(n)") := by
  constructor
  · intro env code model gk h
    simp only [analyze_complexity]
    rw [h]
  · intro env code gk e h
    simp only [analyze_complexity, get_ai_response]
    rw [if_neg (by decide)]
    rw [h]
    rfl

/-- C7 witness: the amended fallback evaluated at a concrete failing
environment and input. -/
theorem c7_complexity_fallback_witness :
    analyze_complexity envFail "while x: pass" "llama-3.3-70b-versatile" none = "O(n)" :=
  c7_complexity_fallback.2 envFail "while x: pass" none "boom" rfl

/-- C10: a review/rewrite request whose resolved user type is not
`student` leaves the similarity corpus and the per-student counters
unchanged and reports the `"N/A"` plagiarism field. -/
theorem c10_non_student_frame :
    ∀ (env : ProcEnv) (p : Payload) (st : ReviewState), normUserType p ≠ "student" →
      (processCode env p st).2.codeDb = st.codeDb ∧
        (processCode env p st).2.studentStats = st.studentStats ∧
        (processCode env p st).1.plagiarism = none := by
  intro env p st h
  simp [processCode, if_neg h]

/-- C10 witness: the frame property evaluated at a concrete developer
request. -/
theorem c10_non_student_frame_witness :
    (processCode env0 pDeveloper st0).2.codeDb = st0.codeDb ∧
      (processCode env0 pDeveloper st0).2.studentStats = st0.studentStats ∧
      (processCode env0 pDeveloper st0).1.plagiarism = none :=
  c10_non_student_frame env0 pDeveloper st0 (by decide)
